import Mathlib

/-!
Verification of the parametric room-geometry placement logic of the
3D room planner (door/window/camera placement, door-opening easing,
and the furniture-list operations).

Conventions of the embedding:
* lengths and positions are exact rationals (ℚ), matching the numeric
  arithmetic of the source expressions;
* rotations about the vertical (Y) axis are stored as rational
  multiples of π: a stored value `q` means an angle of `q * π` radians
  (the source stores `0`, `Math.PI`, `Math.PI/2`, `-Math.PI/2`);
* the door-angle animation is modelled over the reals, with the target
  angle and the ease rate as parameters.
-/

namespace RoomPlanner

/-- A 3-component vector of rational coordinates (x, y, z). -/
structure Vec3 where
  x : ℚ
  y : ℚ
  z : ℚ
deriving DecidableEq

/-- The wall selector: one of the four cardinal walls of the room. -/
inductive Wall where
  | front
  | back
  | left
  | right
deriving DecidableEq

/-- Interior camera position, from `getInsidePosition(doorWall, roomWidth,
roomLength, roomHeight)`: one unit inside the chosen door wall, at half
room height, centered on the perpendicular axis. -/
def getInsidePosition (doorWall : Wall) (roomWidth roomLength roomHeight : ℚ) : Vec3 :=
  match doorWall with
  | .front => ⟨0, roomHeight / 2, roomLength / 2 - 1⟩
  | .back => ⟨0, roomHeight / 2, -roomLength / 2 + 1⟩
  | .left => ⟨-roomWidth / 2 + 1, roomHeight / 2, 0⟩
  | .right => ⟨roomWidth / 2 - 1, roomHeight / 2, 0⟩

/-- A placement transform: a position together with a rotation about the
vertical axis, the rotation stored as a rational multiple of π
(so `rotY = 1/2` means `π/2` radians, i.e. +90°). -/
structure DoorTransform where
  position : Vec3
  rotY : ℚ
deriving DecidableEq

/-- Door group placement, from the `getDoorTransform(wall)` helper of the
`Walls` component: position and Y-rotation per wall. The source stores
rotations `[0,0,0]`, `[0, Math.PI, 0]`, `[0, Math.PI/2, 0]`,
`[0, -Math.PI/2, 0]`; here the Y component is kept in units of π. -/
def getDoorTransform (wall : Wall) (width length doorWidth doorOffset : ℚ) : DoorTransform :=
  match wall with
  | .front => ⟨⟨-doorWidth / 2 + doorOffset, 0, length / 2⟩, 0⟩
  | .back => ⟨⟨-doorWidth / 2 + doorOffset, 0, -length / 2⟩, 1⟩
  | .left => ⟨⟨-width / 2, 0, -doorWidth / 2 + doorOffset⟩, 1 / 2⟩
  | .right => ⟨⟨width / 2, 0, -doorWidth / 2 + doorOffset⟩, -(1 / 2)⟩

/-- Window group position, from the `getWindowPosition(wall)` helper of the
`Walls` component. The 0.1 term is the fixed outward clearance used by the
source to avoid z-fighting with the wall plane. -/
def getWindowPosition (wall : Wall) (width length windowWidth windowHeight
    windowHeightFromFloor windowOffset : ℚ) : Vec3 :=
  match wall with
  | .front =>
      ⟨-windowWidth / 2 + windowOffset, windowHeightFromFloor + windowHeight / 2,
        length / 2 + 0.1⟩
  | .back =>
      ⟨-windowWidth / 2 + windowOffset, windowHeightFromFloor + windowHeight / 2,
        -length / 2 - 0.1⟩
  | .left =>
      ⟨-width / 2 - 0.1, windowHeightFromFloor + windowHeight / 2,
        -windowWidth / 2 + windowOffset⟩
  | .right =>
      ⟨width / 2 + 0.1, windowHeightFromFloor + windowHeight / 2,
        -windowWidth / 2 + windowOffset⟩

/-- Legal range of the door's horizontal offset, from
`getDoorOffsetLimits()`: the wall extent is the room width for the
front/back walls and the room length for the left/right walls. -/
def getDoorOffsetLimits (doorWall : Wall) (roomWidth roomLength doorWidth : ℚ) : ℚ × ℚ :=
  let wallWidth := if doorWall = Wall.front ∨ doorWall = Wall.back then roomWidth else roomLength
  (-wallWidth / 2 + doorWidth / 2, wallWidth / 2 - doorWidth / 2)

/-- Exact cosine of `q * π` for the quarter-turn multiples `q ∈ {0, 1, -1,
1/2, -1/2}` used by the wall rotations; agreement with `Real.cos` at those
values is proved in `cosPiQ_correct`. -/
def cosPiQ (q : ℚ) : ℚ :=
  if q = 0 then 1 else if q = 1 ∨ q = -1 then -1 else 0

/-- Exact sine of `q * π` for the quarter-turn multiples `q ∈ {0, 1, -1,
1/2, -1/2}` used by the wall rotations; agreement with `Real.sin` at those
values is proved in `sinPiQ_correct`. -/
def sinPiQ (q : ℚ) : ℚ :=
  if q = 1 / 2 then 1 else if q = -(1 / 2) then -1 else 0

/-- Scene-graph composition of a group transform with a local position:
the world position is the group position plus the local position rotated
by the group's Y-rotation (the standard right-handed rotation matrix
about Y used by the rendering library). -/
def applyGroupTransform (t : DoorTransform) (p : Vec3) : Vec3 :=
  let c := cosPiQ t.rotY
  let s := sinPiQ t.rotY
  ⟨t.position.x + c * p.x + s * p.z,
   t.position.y + p.y,
   t.position.z - s * p.x + c * p.z⟩

/-- Local position of the door panel mesh inside the door group, from the
`Door` component: `position=[doorWidth / 2, doorHeight / 2, 0]`, offsetting
the panel so that the group origin is the hinge edge. -/
def doorPanelLocalCenter (doorWidth doorHeight : ℚ) : Vec3 :=
  ⟨doorWidth / 2, doorHeight / 2, 0⟩

/-- World-space center of the door panel: the door group transform of the
chosen wall applied to the panel's hinge-relative local center. -/
def doorPanelWorldCenter (wall : Wall) (width length doorWidth doorHeight doorOffset : ℚ) :
    Vec3 :=
  applyGroupTransform (getDoorTransform wall width length doorWidth doorOffset)
    (doorPanelLocalCenter doorWidth doorHeight)

/-- Linear interpolation `x + (y - x) * t`, the semantics of
`THREE.MathUtils.lerp(x, y, t)` used by the per-frame easing. -/
def lerp (x y t : ℝ) : ℝ :=
  x + (y - x) * t

/-- The door-angle sequence driven by the per-frame hook of the `Door`
component: starting from the closed angle 0, each tick replaces the angle
by `lerp(angle, target, rate)`. The source uses `target = -Math.PI/2`
(the open angle) and `rate = 0.1`. -/
def doorAngle (target rate : ℝ) : ℕ → ℝ
  | 0 => 0
  | n + 1 => lerp (doorAngle target rate n) target rate

/-- A placed furniture item, as built by `addFurniture`: a timestamp id,
the catalog type, color and size strings, and a freely mutable position. -/
structure FurnitureItem where
  id : ℤ
  type : String
  color : String
  size : String
  position : Vec3
deriving DecidableEq

/-- The `addFurniture` handler: builds a new item whose id is the current
clock value (`Date.now()`, passed here as `now`) and appends it to the
placed-items list. -/
def addFurniture (now : ℤ) (furnitureType furnitureColor furnitureSize : String)
    (posX posY posZ : ℚ) (furnitureItems : List FurnitureItem) : List FurnitureItem :=
  furnitureItems ++ [⟨now, furnitureType, furnitureColor, furnitureSize, ⟨posX, posY, posZ⟩⟩]

/-- The `updateFurniture(id, newPos)` handler: maps over the list, replacing
the position of every item whose id matches and leaving the rest intact. -/
def updateFurniture (id : ℤ) (newPos : Vec3) (items : List FurnitureItem) :
    List FurnitureItem :=
  items.map fun item => if item.id = id then { item with position := newPos } else item

/-- The `removeFurniture(id)` handler: keeps exactly the items whose id
differs from the given one. -/
def removeFurniture (id : ℤ) (items : List FurnitureItem) : List FurnitureItem :=
  items.filter fun item => item.id ≠ id

/-- The door-related slice of the application state: wall selector, door
width, height, color and horizontal offset. -/
structure DoorSettings where
  doorWall : Wall
  doorWidth : ℚ
  doorHeight : ℚ
  doorColor : String
  doorHorizontalOffset : ℚ
deriving DecidableEq

/-- The `onChange` handler of the door-wall select control: sets the new
wall and resets the horizontal offset to 0 (the source comment: reset door
offset when changing walls to ensure the door is visible). -/
def handleDoorWallChange (value : Wall) (s : DoorSettings) : DoorSettings :=
  { s with doorWall := value, doorHorizontalOffset := 0 }

/-- The quarter-turn cosine table agrees with the real cosine of `q * π`
at every value it is used on. -/
theorem cosPiQ_correct (q : ℚ)
    (h : q = 0 ∨ q = 1 ∨ q = -1 ∨ q = 1 / 2 ∨ q = -(1 / 2)) :
    ((cosPiQ q : ℚ) : ℝ) = Real.cos ((q : ℝ) * Real.pi) := by
  rcases h with h | h | h | h | h <;> subst h
  · simp [cosPiQ]
  · norm_num [cosPiQ, Real.cos_pi]
  · rw [show (((-1 : ℚ)) : ℝ) * Real.pi = -Real.pi from by push_cast; ring,
      Real.cos_neg, Real.cos_pi]
    norm_num [cosPiQ]
  · rw [show (((1 / 2 : ℚ)) : ℝ) * Real.pi = Real.pi / 2 from by push_cast; ring,
      Real.cos_pi_div_two]
    norm_num [cosPiQ]
  · rw [show (((-(1 / 2) : ℚ)) : ℝ) * Real.pi = -(Real.pi / 2) from by push_cast; ring,
      Real.cos_neg, Real.cos_pi_div_two]
    norm_num [cosPiQ]

/-- The quarter-turn sine table agrees with the real sine of `q * π`
at every value it is used on. -/
theorem sinPiQ_correct (q : ℚ)
    (h : q = 0 ∨ q = 1 ∨ q = -1 ∨ q = 1 / 2 ∨ q = -(1 / 2)) :
    ((sinPiQ q : ℚ) : ℝ) = Real.sin ((q : ℝ) * Real.pi) := by
  rcases h with h | h | h | h | h <;> subst h
  · simp [sinPiQ]
  · norm_num [sinPiQ, Real.sin_pi]
  · rw [show (((-1 : ℚ)) : ℝ) * Real.pi = -Real.pi from by push_cast; ring,
      Real.sin_neg, Real.sin_pi]
    norm_num [sinPiQ]
  · rw [show (((1 / 2 : ℚ)) : ℝ) * Real.pi = Real.pi / 2 from by push_cast; ring,
      Real.sin_pi_div_two]
    norm_num [sinPiQ]
  · rw [show (((-(1 / 2) : ℚ)) : ℝ) * Real.pi = -(Real.pi / 2) from by push_cast; ring,
      Real.sin_neg, Real.sin_pi_div_two]
    norm_num [sinPiQ]

/-- C1: the door transform places the door per wall as: front at
`(-dw/2 + o, 0, L/2)` with rotation 0; back at `(-dw/2 + o, 0, -L/2)` with
rotation 180° (π); left at `(-W/2, 0, -dw/2 + o)` with rotation +90°
(π/2); right at `(W/2, 0, -dw/2 + o)` with rotation −90° (−π/2); and in
particular for the 8×8 room at offset 0 the front door sits at
`x = -dw/2, z = 4` and the left door at `x = -4, z = -dw/2`. -/
theorem C1_doorTransform (W L dw o : ℚ) :
    getDoorTransform Wall.front W L dw o = ⟨⟨-dw / 2 + o, 0, L / 2⟩, 0⟩ ∧
    getDoorTransform Wall.back W L dw o = ⟨⟨-dw / 2 + o, 0, -L / 2⟩, 1⟩ ∧
    getDoorTransform Wall.left W L dw o = ⟨⟨-W / 2, 0, -dw / 2 + o⟩, 1 / 2⟩ ∧
    getDoorTransform Wall.right W L dw o = ⟨⟨W / 2, 0, -dw / 2 + o⟩, -(1 / 2)⟩ ∧
    ((getDoorTransform Wall.front W L dw o).rotY : ℝ) * Real.pi = 0 ∧
    ((getDoorTransform Wall.back W L dw o).rotY : ℝ) * Real.pi = Real.pi ∧
    ((getDoorTransform Wall.left W L dw o).rotY : ℝ) * Real.pi = Real.pi / 2 ∧
    ((getDoorTransform Wall.right W L dw o).rotY : ℝ) * Real.pi = -(Real.pi / 2) ∧
    (getDoorTransform Wall.front 8 8 dw 0).position = ⟨-dw / 2, 0, 4⟩ ∧
    (getDoorTransform Wall.left 8 8 dw 0).position = ⟨-4, 0, -dw / 2⟩ := by
  refine ⟨rfl, rfl, rfl, rfl, ?_, ?_, ?_, ?_, ?_, ?_⟩
  · simp [getDoorTransform]
  · simp [getDoorTransform]
  · simp [getDoorTransform]
    ring
  · simp [getDoorTransform]
    ring
  · simp [getDoorTransform]
    norm_num
  · simp [getDoorTransform]
    norm_num

/-- C2: the legal door-offset interval is
`[-(W/2 - dw/2), W/2 - dw/2]`, where the wall extent W is the room width
for the front/back walls and the room length for the left/right walls. -/
theorem C2_doorOffsetBounds (roomWidth roomLength doorWidth : ℚ) :
    getDoorOffsetLimits Wall.front roomWidth roomLength doorWidth =
      (-(roomWidth / 2 - doorWidth / 2), roomWidth / 2 - doorWidth / 2) ∧
    getDoorOffsetLimits Wall.back roomWidth roomLength doorWidth =
      (-(roomWidth / 2 - doorWidth / 2), roomWidth / 2 - doorWidth / 2) ∧
    getDoorOffsetLimits Wall.left roomWidth roomLength doorWidth =
      (-(roomLength / 2 - doorWidth / 2), roomLength / 2 - doorWidth / 2) ∧
    getDoorOffsetLimits Wall.right roomWidth roomLength doorWidth =
      (-(roomLength / 2 - doorWidth / 2), roomLength / 2 - doorWidth / 2) := by
  refine ⟨?_, ?_, ?_, ?_⟩
  · rw [show -(roomWidth / 2 - doorWidth / 2) = -roomWidth / 2 + doorWidth / 2 from by ring]
    rfl
  · rw [show -(roomWidth / 2 - doorWidth / 2) = -roomWidth / 2 + doorWidth / 2 from by ring]
    rfl
  · rw [show -(roomLength / 2 - doorWidth / 2) = -roomLength / 2 + doorWidth / 2 from by ring]
    rfl
  · rw [show -(roomLength / 2 - doorWidth / 2) = -roomLength / 2 + doorWidth / 2 from by ring]
    rfl

/-- C3 (amended): the window transform is flush with the chosen wall,
offset outward by the fixed clearance 1/10, vertically centered at
`heightFromFloor + height/2`, and its horizontal coordinate is
`-windowWidth/2 + horizontalOffset`: the window's center (the window
geometry is symmetric about its local origin) coincides with the wall's
center only at offset `windowWidth/2`, not at offset 0. -/
theorem C3_windowTransform (W L w h f o : ℚ) :
    getWindowPosition Wall.front W L w h f o = ⟨-w / 2 + o, f + h / 2, L / 2 + 1 / 10⟩ ∧
    getWindowPosition Wall.back W L w h f o = ⟨-w / 2 + o, f + h / 2, -L / 2 - 1 / 10⟩ ∧
    getWindowPosition Wall.left W L w h f o = ⟨-W / 2 - 1 / 10, f + h / 2, -w / 2 + o⟩ ∧
    getWindowPosition Wall.right W L w h f o = ⟨W / 2 + 1 / 10, f + h / 2, -w / 2 + o⟩ := by
  refine ⟨?_, ?_, ?_, ?_⟩ <;> simp [getWindowPosition, Vec3.mk.injEq] <;> norm_num

/-- C3 counterexample: for the 8×8 room with a 2-wide window on the front
wall at horizontal offset 0, the window group position (and hence the
window's center, the window geometry being symmetric about its local
origin) has x = −1, not the wall-center coordinate 0. -/
theorem C3_counterexample_windowNotCentered :
    (getWindowPosition Wall.front 8 8 2 (3 / 2) 1 0).x = -1 ∧ ((-1 : ℚ) ≠ 0) := by
  constructor
  · norm_num [getWindowPosition]
  · norm_num

/-- C6 (amended): at horizontal offset 0 the door panel's world center,
computed by composing the per-wall group transform with the panel's
hinge-relative local origin, is centered on the front and right walls;
on the back and left walls the 180° / +90° group rotation mirrors the
hinge offset, so the panel center lands a full door width toward −x
(back wall) resp. −z (left wall) of the wall's center. -/
theorem C6_doorCenteringPerWall (W L dw dh : ℚ) :
    doorPanelWorldCenter Wall.front W L dw dh 0 = ⟨0, dh / 2, L / 2⟩ ∧
    doorPanelWorldCenter Wall.right W L dw dh 0 = ⟨W / 2, dh / 2, 0⟩ ∧
    doorPanelWorldCenter Wall.back W L dw dh 0 = ⟨-dw, dh / 2, -L / 2⟩ ∧
    doorPanelWorldCenter Wall.left W L dw dh 0 = ⟨-W / 2, dh / 2, -dw⟩ := by
  refine ⟨?_, ?_, ?_, ?_⟩ <;>
    norm_num [doorPanelWorldCenter, applyGroupTransform, getDoorTransform,
      doorPanelLocalCenter, cosPiQ, sinPiQ, Vec3.mk.injEq] <;>
    ring

/-- C6 counterexample: for the 8×8 room with a door of width 1 and height
2 on the back wall at offset 0, the door panel's world center has x = −1,
not the wall-center coordinate 0: the door is not centered on the back
wall at offset 0. -/
theorem C6_counterexample_backWallOffCenter :
    (doorPanelWorldCenter Wall.back 8 8 1 2 0).x = -1 ∧ ((-1 : ℚ) ≠ 0) := by
  constructor
  · norm_num [doorPanelWorldCenter, applyGroupTransform, getDoorTransform,
      doorPanelLocalCenter, cosPiQ, sinPiQ]
  · norm_num

/-- C5: the interior camera position is one unit inward from the door
wall, at half the room height, centered on the perpendicular axis; in
particular `(0, 2, -3)` for the back wall of the 8×8×4 room. -/
theorem C5_interiorCameraPosition (W L H : ℚ) :
    getInsidePosition Wall.front W L H = ⟨0, H / 2, L / 2 - 1⟩ ∧
    getInsidePosition Wall.back W L H = ⟨0, H / 2, -L / 2 + 1⟩ ∧
    getInsidePosition Wall.left W L H = ⟨-W / 2 + 1, H / 2, 0⟩ ∧
    getInsidePosition Wall.right W L H = ⟨W / 2 - 1, H / 2, 0⟩ ∧
    getInsidePosition Wall.back 8 8 4 = ⟨0, 2, -3⟩ := by
  refine ⟨rfl, rfl, rfl, rfl, ?_⟩
  simp [getInsidePosition]
  norm_num

/-- Closed form of the door-angle sequence at the source's ease rate 0.1:
after n ticks the angle is `target * (1 - (9/10)^n)`. -/
theorem doorAngle_closedForm (target : ℝ) (n : ℕ) :
    doorAngle target (1 / 10) n = target * (1 - (9 / 10) ^ n) := by
  induction n with
  | zero => simp [doorAngle]
  | succ n ih =>
      simp only [doorAngle, lerp, ih]
      ring

/-- C4 (amended): with the toggle target set to open (−π/2) and the
source's ease rate 0.1, the door-angle sequence is strictly decreasing,
never passes below −π/2, and converges to −π/2; after 100 ticks it is
within 10⁻⁴ radians of −π/2 (it is *not* within 10⁻⁶ at tick 100, see
the counterexample). -/
theorem C4_doorEasing :
    (∀ n : ℕ, doorAngle (-(Real.pi / 2)) (1 / 10) (n + 1) <
      doorAngle (-(Real.pi / 2)) (1 / 10) n) ∧
    (∀ n : ℕ, -(Real.pi / 2) < doorAngle (-(Real.pi / 2)) (1 / 10) n) ∧
    Filter.Tendsto (doorAngle (-(Real.pi / 2)) (1 / 10)) Filter.atTop
      (nhds (-(Real.pi / 2))) ∧
    |doorAngle (-(Real.pi / 2)) (1 / 10) 100 - (-(Real.pi / 2))| < 1 / 10000 := by
  have key : ∀ n : ℕ, doorAngle (-(Real.pi / 2)) (1 / 10) n =
      -(Real.pi / 2) * (1 - ((9 : ℝ) / 10) ^ n) := fun n => doorAngle_closedForm _ n
  have hq : ∀ n : ℕ, (0 : ℝ) < ((9 : ℝ) / 10) ^ n := fun n => by positivity
  have hpi : (0 : ℝ) < Real.pi / 2 := by positivity
  refine ⟨?_, ?_, ?_, ?_⟩
  · intro n
    rw [key, key,
      show -(Real.pi / 2) * (1 - ((9 : ℝ) / 10) ^ (n + 1)) =
        -(Real.pi / 2) + Real.pi / 2 * ((9 : ℝ) / 10) ^ (n + 1) from by ring,
      show -(Real.pi / 2) * (1 - ((9 : ℝ) / 10) ^ n) =
        -(Real.pi / 2) + Real.pi / 2 * ((9 : ℝ) / 10) ^ n from by ring]
    have hlt : ((9 : ℝ) / 10) ^ (n + 1) < ((9 : ℝ) / 10) ^ n :=
      pow_lt_pow_right_of_lt_one₀ (by norm_num) (by norm_num) (Nat.lt_succ_self n)
    have := mul_lt_mul_of_pos_left hlt hpi
    linarith
  · intro n
    rw [key,
      show -(Real.pi / 2) * (1 - ((9 : ℝ) / 10) ^ n) =
        -(Real.pi / 2) + Real.pi / 2 * ((9 : ℝ) / 10) ^ n from by ring]
    have := mul_pos hpi (hq n)
    linarith
  · have h0 : Filter.Tendsto (fun n : ℕ => ((9 : ℝ) / 10) ^ n) Filter.atTop (nhds 0) :=
      tendsto_pow_atTop_nhds_zero_of_lt_one (by norm_num) (by norm_num)
    have h1 : Filter.Tendsto
        (fun n : ℕ => -(Real.pi / 2) * (1 - ((9 : ℝ) / 10) ^ n)) Filter.atTop
        (nhds (-(Real.pi / 2) * (1 - 0))) :=
      Filter.Tendsto.const_mul (-(Real.pi / 2)) (Filter.Tendsto.const_sub 1 h0)
    rw [show -(Real.pi / 2) * (1 - (0 : ℝ)) = -(Real.pi / 2) from by ring] at h1
    exact Filter.Tendsto.congr (fun n => (key n).symm) h1
  · rw [key,
      show -(Real.pi / 2) * (1 - ((9 : ℝ) / 10) ^ 100) - -(Real.pi / 2) =
        Real.pi / 2 * ((9 : ℝ) / 10) ^ 100 from by ring,
      abs_of_pos (mul_pos hpi (hq 100))]
    have hlt : Real.pi < 3.15 := Real.pi_lt_d2
    have h2 : Real.pi / 2 * ((9 : ℝ) / 10) ^ 100 <
        (3.15 : ℝ) / 2 * ((9 : ℝ) / 10) ^ 100 :=
      mul_lt_mul_of_pos_right (by linarith) (hq 100)
    have h3 : (3.15 : ℝ) / 2 * ((9 : ℝ) / 10) ^ 100 < 1 / 10000 := by norm_num
    linarith

/-- C4 counterexample: at the source's ease rate 0.1 the door angle after
100 ticks is still more than 10⁻⁶ radians away from the open angle −π/2
(the gap is (π/2)·(9/10)¹⁰⁰ ≈ 4.2·10⁻⁵). -/
theorem C4_counterexample_notWithinEpsilonAt100 :
    ¬ (|doorAngle (-(Real.pi / 2)) (1 / 10) 100 - (-(Real.pi / 2))| ≤ 1 / 1000000) := by
  rw [doorAngle_closedForm,
    show -(Real.pi / 2) * (1 - ((9 : ℝ) / 10) ^ 100) - -(Real.pi / 2) =
      Real.pi / 2 * ((9 : ℝ) / 10) ^ 100 from by ring,
    abs_of_pos (by positivity)]
  push_neg
  have h3 : (3 : ℝ) / 2 * ((9 : ℝ) / 10) ^ 100 > 1 / 1000000 := by norm_num
  have hpi3 : (3 : ℝ) < Real.pi := Real.pi_gt_three
  nlinarith [pow_pos (show (0 : ℝ) < 9 / 10 from by norm_num) 100]

/-- C10: changing the door wall resets the horizontal offset to 0 in the
same update and leaves door width, height and color unchanged. -/
theorem C10_doorWallChangeResetsOffset (value : Wall) (s : DoorSettings) :
    (handleDoorWallChange value s).doorWall = value ∧
    (handleDoorWallChange value s).doorHorizontalOffset = 0 ∧
    (handleDoorWallChange value s).doorWidth = s.doorWidth ∧
    (handleDoorWallChange value s).doorHeight = s.doorHeight ∧
    (handleDoorWallChange value s).doorColor = s.doorColor :=
  ⟨rfl, rfl, rfl, rfl, rfl⟩

/-- C7 (amended): provided the creation timestamp differs from the id of
every item already in the list, `addFurniture` assigns the new item an id
distinct from all existing ids and exactly one item with that id is in
the resulting list; `removeFurniture` keeps exactly the items whose id
differs from the removed id. -/
theorem C7_addFreshIdRemoveExact (now : ℤ)
    (furnitureType furnitureColor furnitureSize : String) (posX posY posZ : ℚ)
    (items : List FurnitureItem) (hfresh : ∀ it ∈ items, it.id ≠ now) :
    ((addFurniture now furnitureType furnitureColor furnitureSize posX posY posZ
        items).countP (fun it => it.id = now) = 1) ∧
    (∀ rid : ℤ, ∀ it : FurnitureItem,
      it ∈ removeFurniture rid items ↔ it ∈ items ∧ it.id ≠ rid) := by
  constructor
  · rw [addFurniture, List.countP_append]
    have h0 : items.countP (fun it => decide (it.id = now)) = 0 := by
      rw [List.countP_eq_zero]
      intro it hit
      simpa using hfresh it hit
    rw [h0]
    simp
  · intro rid it
    simp [removeFurniture, List.mem_filter]

/-- C7 counterexample: the id is the raw clock value, so two additions
carrying the same timestamp (two clicks within the same millisecond)
produce two items with the same id 5: the new item's id is not distinct
from the existing one and appears twice in the list. -/
theorem C7_counterexample_duplicateTimestamp :
    ((addFurniture 5 "Table" "#ff0000" "Small" 1 0 1
        (addFurniture 5 "Chair" "#8b4513" "Medium" 0 0 0 [])).map
      FurnitureItem.id = [5, 5]) ∧
    ¬ ((addFurniture 5 "Table" "#ff0000" "Small" 1 0 1
        (addFurniture 5 "Chair" "#8b4513" "Medium" 0 0 0 [])).map
      FurnitureItem.id).Nodup := by
  constructor
  · rfl
  · decide

/-- C7 witness: the amended theorem applied to a one-item list with id 1
and a fresh timestamp 5. -/
theorem C7_addFreshIdRemoveExact_witness :
    (∀ it ∈ ([⟨1, "Chair", "#8b4513", "Medium", ⟨0, 0, 0⟩⟩] : List FurnitureItem),
      it.id ≠ (5 : ℤ)) ∧
    (((addFurniture 5 "Table" "#ff0000" "Small" 1 0 1
        [⟨1, "Chair", "#8b4513", "Medium", ⟨0, 0, 0⟩⟩]).countP
          (fun it => it.id = (5 : ℤ)) = 1) ∧
      (∀ rid : ℤ, ∀ it : FurnitureItem,
        it ∈ removeFurniture rid [⟨1, "Chair", "#8b4513", "Medium", ⟨0, 0, 0⟩⟩] ↔
          it ∈ ([⟨1, "Chair", "#8b4513", "Medium", ⟨0, 0, 0⟩⟩] : List FurnitureItem) ∧
            it.id ≠ rid)) :=
  ⟨by decide, C7_addFreshIdRemoveExact 5 "Table" "#ff0000" "Small" 1 0 1
    [⟨1, "Chair", "#8b4513", "Medium", ⟨0, 0, 0⟩⟩] (by decide)⟩

/-- C8: when the item ids are pairwise distinct, the drag-end update of
item i replaces only that item's position (its id, type, color and size
are kept, as is every other item of the list). -/
theorem C8_updateOnlyPosition (items : List FurnitureItem) (i : ℕ)
    (hi : i < items.length) (newPos : Vec3)
    (hnodup : (items.map FurnitureItem.id).Nodup) :
    (updateFurniture (items.get ⟨i, hi⟩).id newPos items).length = items.length ∧
    (updateFurniture (items.get ⟨i, hi⟩).id newPos items)[i]? =
      some { items.get ⟨i, hi⟩ with position := newPos } ∧
    (∀ j : ℕ, j ≠ i →
      (updateFurniture (items.get ⟨i, hi⟩).id newPos items)[j]? = items[j]?) := by
  refine ⟨by simp [updateFurniture], ?_, ?_⟩
  · rw [updateFurniture, List.getElem?_map, List.getElem?_eq_getElem hi]
    simp [List.get_eq_getElem]
  · intro j hji
    by_cases hjl : j < items.length
    · rw [updateFurniture, List.getElem?_map, List.getElem?_eq_getElem hjl]
      have hne : ¬ (items.get ⟨j, hjl⟩).id = (items.get ⟨i, hi⟩).id := by
        intro heq
        have hinj := List.nodup_iff_injective_get.mp hnodup
        have hi2 : i < (items.map FurnitureItem.id).length := by simpa using hi
        have hj2 : j < (items.map FurnitureItem.id).length := by simpa using hjl
        have hget : (items.map FurnitureItem.id).get ⟨j, hj2⟩ =
            (items.map FurnitureItem.id).get ⟨i, hi2⟩ := by
          simpa [List.get_eq_getElem, List.getElem_map] using heq
        have hfin : (⟨j, hj2⟩ : Fin (items.map FurnitureItem.id).length) = ⟨i, hi2⟩ :=
          hinj hget
        exact hji (by simpa using congrArg Fin.val hfin)
      simp [List.get_eq_getElem] at hne
      simp [List.get_eq_getElem, hne]
    · have hge : items.length ≤ j := le_of_not_lt hjl
      rw [updateFurniture, List.getElem?_eq_none (by simpa using hge),
        List.getElem?_eq_none hge]

/-- C8 witness: the theorem applied to a two-item list with distinct ids,
updating the first item's position. -/
theorem C8_updateOnlyPosition_witness :
    ((0 : ℕ) <
      ([⟨1, "Chair", "#8b4513", "Medium", ⟨0, 0, 0⟩⟩,
        ⟨2, "Table", "#ffffff", "Small", ⟨1, 0, 0⟩⟩] : List FurnitureItem).length) ∧
    (([⟨1, "Chair", "#8b4513", "Medium", ⟨0, 0, 0⟩⟩,
        ⟨2, "Table", "#ffffff", "Small", ⟨1, 0, 0⟩⟩] : List FurnitureItem).map
      FurnitureItem.id).Nodup ∧
    ((updateFurniture 1 ⟨5, 0, 5⟩
        [⟨1, "Chair", "#8b4513", "Medium", ⟨0, 0, 0⟩⟩,
         ⟨2, "Table", "#ffffff", "Small", ⟨1, 0, 0⟩⟩]).length =
      ([⟨1, "Chair", "#8b4513", "Medium", ⟨0, 0, 0⟩⟩,
        ⟨2, "Table", "#ffffff", "Small", ⟨1, 0, 0⟩⟩] : List FurnitureItem).length ∧
     (updateFurniture 1 ⟨5, 0, 5⟩
        [⟨1, "Chair", "#8b4513", "Medium", ⟨0, 0, 0⟩⟩,
         ⟨2, "Table", "#ffffff", "Small", ⟨1, 0, 0⟩⟩])[0]? =
      some ⟨1, "Chair", "#8b4513", "Medium", ⟨5, 0, 5⟩⟩ ∧
     (∀ j : ℕ, j ≠ 0 →
       (updateFurniture 1 ⟨5, 0, 5⟩
          [⟨1, "Chair", "#8b4513", "Medium", ⟨0, 0, 0⟩⟩,
           ⟨2, "Table", "#ffffff", "Small", ⟨1, 0, 0⟩⟩])[j]? =
        ([⟨1, "Chair", "#8b4513", "Medium", ⟨0, 0, 0⟩⟩,
          ⟨2, "Table", "#ffffff", "Small", ⟨1, 0, 0⟩⟩] : List FurnitureItem)[j]?)) :=
  ⟨by decide, by decide,
    C8_updateOnlyPosition
      [⟨1, "Chair", "#8b4513", "Medium", ⟨0, 0, 0⟩⟩,
       ⟨2, "Table", "#ffffff", "Small", ⟨1, 0, 0⟩⟩] 0 (by decide) ⟨5, 0, 5⟩ (by decide)⟩

/-- C9: removing a furniture id that is not in the list is a no-op: the
list is returned unchanged (and the operation is a total function, so no
error can arise). -/
theorem C9_removeMissingIsNoop (rid : ℤ) (items : List FurnitureItem)
    (habsent : ∀ it ∈ items, it.id ≠ rid) :
    removeFurniture rid items = items := by
  rw [removeFurniture]
  apply List.filter_eq_self.mpr
  intro it hit
  simpa using habsent it hit

/-- C9 witness: removing the absent id 5 from a one-item list with id 1
returns the list unchanged. -/
theorem C9_removeMissingIsNoop_witness :
    (∀ it ∈ ([⟨1, "Chair", "#8b4513", "Medium", ⟨0, 0, 0⟩⟩] : List FurnitureItem),
      it.id ≠ (5 : ℤ)) ∧
    removeFurniture 5 [⟨1, "Chair", "#8b4513", "Medium", ⟨0, 0, 0⟩⟩] =
      [⟨1, "Chair", "#8b4513", "Medium", ⟨0, 0, 0⟩⟩] :=
  ⟨by decide, C9_removeMissingIsNoop 5
    [⟨1, "Chair", "#8b4513", "Medium", ⟨0, 0, 0⟩⟩] (by decide)⟩

end RoomPlanner
